import Mathlib

/-!
Shallow embedding of the authenticated API access layer of the cliofy-cli
repository (packages/core/src/config and packages/core/src/api), together with
theorems settling the specification claims about it.

The embedding follows the TypeScript source:
  * `Config`, `DEFAULT_CONFIG` — packages/core/src/config/types.ts
  * `ConfigManager` methods    — packages/core/src/config/manager.ts
  * `APIClient` interceptors, refresh coordination, task and health endpoints —
    packages/core/src/api/client.ts

JavaScript truthiness on optional string / number fields is modelled explicitly
(`strTruthy`, and the zero test in `needsFirebaseTokenRefresh`), since several
source branches test plain truthiness (`if (!refreshToken)`,
`if (!this.config.firebaseTokenExpiresAt)`, `!!(idToken && uid)`).
-/

namespace Cliofy

/-- The persisted configuration record, from `ConfigSchema` in
packages/core/src/config/types.ts.  Optional fields are `Option`s; a field that
`updateConfig` deletes (merged value `undefined`) is `none`. -/
structure Config where
  endpoint : String
  timeout : Int
  firebaseIdToken : Option String
  firebaseRefreshToken : Option String
  firebaseUid : Option String
  userEmail : Option String
  firebaseTokenExpiresAt : Option Int
  lastLogin : Option String
deriving Repr, DecidableEq

/-- `DEFAULT_CONFIG` from config/types.ts.  The environment overrides
(`CLIOFY_ENDPOINT`, `CLIOFY_TIMEOUT`) are modelled by their built-in fallback
values. -/
def DEFAULT_CONFIG : Config :=
  { endpoint := "http://localhost:5173"
    timeout := 30000
    firebaseIdToken := none
    firebaseRefreshToken := none
    firebaseUid := none
    userEmail := none
    firebaseTokenExpiresAt := none
    lastLogin := none }

/-- JavaScript truthiness of an optional string field: `undefined` and the
empty string are falsy. -/
def strTruthy : Option String → Bool
  | none => false
  | some s => !(s == "")

/-- `ConfigManager.isAuthenticated`: `!!(this.config.firebaseIdToken &&
this.config.firebaseUid)`. -/
def isAuthenticated (c : Config) : Bool :=
  strTruthy c.firebaseIdToken && strTruthy c.firebaseUid

/-- The 5-minute buffer (`bufferTime = 5 * 60 * 1000`) of
`ConfigManager.needsFirebaseTokenRefresh`. -/
def bufferTime : Int := 5 * 60 * 1000

/-- `ConfigManager.needsFirebaseTokenRefresh` at current time `now`:
`if (!this.config.firebaseTokenExpiresAt) return false;` (a stored value `0`
is falsy and also yields `false`), otherwise
`currentTime >= expiresAt - bufferTime`. -/
def needsFirebaseTokenRefresh (c : Config) (now : Int) : Bool :=
  match c.firebaseTokenExpiresAt with
  | none => false
  | some e => if e == 0 then false else decide (e - bufferTime ≤ now)

/-- Record-level effect of `ConfigManager.clearTokens`: the partial update sets
the five token fields to `undefined` and `updateConfig` deletes such keys;
`endpoint`, `timeout` and `lastLogin` are not in the partial update and keep
their values. -/
def clearTokens (c : Config) : Config :=
  { c with
    firebaseIdToken := none
    firebaseRefreshToken := none
    firebaseUid := none
    userEmail := none
    firebaseTokenExpiresAt := none }

/-- `ConfigManager.clearFirebaseTokens` has the same body as `clearTokens`. -/
def clearFirebaseTokens (c : Config) : Config :=
  clearTokens c

/-- Placeholder for `new Date().toISOString()` at epoch-millisecond `now`; the
exact textual format is irrelevant to every claim. -/
def isoTimestamp (now : Int) : String :=
  toString now

/-- Record-level effect of `ConfigManager.updateFirebaseTokens idToken
refreshToken expiresIn uid email` at current time `now`.  `uid` and `email` are
`Option`s because the refresh call site passes `getFirebaseUid()!` /
`getUserEmail()`, which may be `undefined`; `updateConfig` deletes keys whose
merged value is `undefined`. -/
def updateFirebaseTokens (c : Config) (idToken refreshToken : String)
    (expiresIn : Int) (uid : Option String) (email : Option String)
    (now : Int) : Config :=
  { c with
    firebaseIdToken := some idToken
    firebaseRefreshToken := some refreshToken
    firebaseUid := uid
    userEmail := email
    firebaseTokenExpiresAt := some (now + expiresIn * 1000)
    lastLogin := some (isoTimestamp now) }

/-- `ConfigManager.getApiHeaders`: fixed content-type and user-agent headers,
plus `Authorization: Bearer <idToken>` when `this.config.firebaseIdToken` is
truthy. -/
def getApiHeaders (c : Config) : List (String × String) :=
  [("Content-Type", "application/json"), ("User-Agent", "cliofy-cli/0.1.0")] ++
    (match c.firebaseIdToken with
     | none => []
     | some t => if t == "" then [] else [("Authorization", "Bearer " ++ t)])

/-- Boolean prefix test on character lists (used to state the URL check over
`String.data`, where it evaluates by reduction). -/
def charsPrefix : List Char → List Char → Bool
  | [], _ => true
  | _ :: _, [] => false
  | a :: as, b :: bs => a == b && charsPrefix as bs

/-- Simplified model of `z.string().url()` — the real check is WHATWG URL
parsing; every endpoint value appearing in this development is classified the
same way by both. -/
def urlValid (s : String) : Bool :=
  charsPrefix "http://".data s.data || charsPrefix "https://".data s.data

/-- Simplified model of `z.string().email()`; every email value appearing in
this development is classified the same way by both. -/
def emailValid (s : String) : Bool :=
  s.data.contains '@'

/-- Models `ConfigSchema.safeParse` on an already-typed record: `endpoint` must
be a URL, `timeout` a positive integer (`z.number().int().positive()`), and
`userEmail`, when present, an email.  The remaining fields are optional
strings/numbers, which the typing already guarantees. -/
def configValid (c : Config) : Bool :=
  urlValid c.endpoint && decide (0 < c.timeout) &&
    (match c.userEmail with
     | none => true
     | some e => emailValid e)

/-- Outcome of `JSON.parse` + `ConfigSchema.safeParse` on the backing file's
content: either the schema rejects the parsed JSON, or it accepts it and
`result.data` is the record `c` (defaults already applied). -/
inductive ParsedJson where
  | schemaInvalid
  | schemaValid (c : Config)
deriving Repr, DecidableEq

/-- State of the backing configuration file as `ConfigManager.loadConfig`
observes it. -/
inductive FileState where
  | absent
  | unreadable
  | notJson
  | json (p : ParsedJson)
deriving Repr, DecidableEq

/-- Errors the body of `loadConfig` can throw before its `catch`. -/
inductive LoadError where
  | readFailed
  | jsonParseFailed
deriving Repr, DecidableEq

/-- `fs.existsSync(this.configPath)`. -/
def fsExists : FileState → Bool
  | .absent => false
  | _ => true

/-- `fs.readFileSync` followed by `JSON.parse`: throws on an unreadable file or
non-JSON content, otherwise yields the parsed JSON. -/
def readParse : FileState → Except LoadError ParsedJson
  | .absent => .error .readFailed
  | .unreadable => .error .readFailed
  | .notJson => .error .jsonParseFailed
  | .json p => .ok p

/-- The `try` block of `ConfigManager.loadConfig`: if the file exists, read and
parse it; on schema failure warn and return `DEFAULT_CONFIG`, on success return
`result.data`; if the file does not exist return `DEFAULT_CONFIG`. -/
def loadConfigBody (fs : FileState) : Except LoadError Config :=
  if fsExists fs then do
    let p ← readParse fs
    match p with
    | .schemaInvalid => pure DEFAULT_CONFIG
    | .schemaValid c => pure c
  else
    pure DEFAULT_CONFIG

/-- `ConfigManager.loadConfig`: the body wrapped in the `catch` that warns and
returns `DEFAULT_CONFIG` on any thrown error, so the function is total. -/
def loadConfig (fs : FileState) : Config :=
  match loadConfigBody fs with
  | .ok c => c
  | .error _ => DEFAULT_CONFIG

/-- Errors `ConfigManager.saveConfig` rethrows to its caller. -/
inductive SaveError where
  | invalidConfig
  | writeFailed
deriving Repr, DecidableEq

/-- Durable file plus the memoized in-memory record (`this._config`) owned by
the `ConfigManager`. -/
structure Store where
  file : FileState
  cache : Option Config
deriving Repr, DecidableEq

/-- `ConfigManager.saveConfig(config?)`: `configToSave = config || this._config`
(return silently if neither is set); validate with `ConfigSchema.safeParse` and
throw without writing on failure; then `fs.writeFileSync` (its failure,
modelled by the `fsWriteFails` flag, is logged and rethrown with the store
unchanged); only after a successful write is the cache set to `result.data`.
The returned `Store` is the post-call state — unchanged whenever an error is
returned. -/
def saveConfig (st : Store) (record : Option Config) (fsWriteFails : Bool) :
    Except SaveError Unit × Store :=
  match record.orElse (fun _ => st.cache) with
  | none => (.ok (), st)
  | some c =>
    if !(configValid c) then (.error .invalidConfig, st)
    else if fsWriteFails then (.error .writeFailed, st)
    else (.ok (), { file := .json (.schemaValid c), cache := some c })

/-- The `APIError` class of packages/core/src/api/client.ts: message, optional
HTTP status code, optional details. -/
structure APIError where
  message : String
  statusCode : Option Int
  details : Option String
deriving Repr, DecidableEq

/-- Token material returned by one successful call to
`FirebaseAuthService.refreshIdToken` (the identity-exchange refresh
endpoint). -/
structure RefreshResult where
  idToken : String
  refreshToken : String
  expiresIn : Int
deriving Repr, DecidableEq

/-- Outcome of one refresh network call: success with new token material, or a
`FirebaseAuthError` whose message becomes the `APIError` details. -/
inductive RefreshOutcome where
  | success (r : RefreshResult)
  | failure (msg : String)
deriving Repr, DecidableEq

/-- Decidable equality on `Except`, for evaluating pipeline results on
concrete inputs. -/
instance {ε α : Type} [DecidableEq ε] [DecidableEq α] :
    DecidableEq (Except ε α) := fun a b =>
  match a, b with
  | .ok x, .ok y =>
    if h : x = y then .isTrue (by rw [h]) else .isFalse (by simp [h])
  | .error x, .error y =>
    if h : x = y then .isTrue (by rw [h]) else .isFalse (by simp [h])
  | .ok _, .error _ => .isFalse (by simp)
  | .error _, .ok _ => .isFalse (by simp)

/-- Result of one (sequential) run of `APIClient.refreshTokenIfNeeded`: the
returned-or-thrown value, the configuration afterwards, and how many refresh
network calls were made (0 or 1). -/
structure RefreshStep where
  result : Except APIError Unit
  cfg : Config
  networkCalls : Nat
deriving Repr, DecidableEq

/-- `APIClient.refreshTokenIfNeeded` in a sequential (single logical call)
execution, where `isRefreshing` is always `false` on entry so the join branch
is skipped.  If `needsFirebaseTokenRefresh()` is false it returns at once; a
missing (falsy) refresh token throws `APIError 401`; otherwise
`performTokenRefresh` runs: on success `updateFirebaseTokens` is applied with
the stored uid/email passed through, on failure `clearFirebaseTokens` is
applied and `APIError('Token refresh failed', 401, msg)` is thrown. -/
def refreshTokenIfNeededSeq (c : Config) (now : Int) (o : RefreshOutcome) :
    RefreshStep :=
  if !(needsFirebaseTokenRefresh c now) then
    ⟨.ok (), c, 0⟩
  else if !(strTruthy c.firebaseRefreshToken) then
    ⟨.error ⟨"No Firebase refresh token available", some 401, none⟩, c, 0⟩
  else
    match o with
    | .success r =>
      ⟨.ok (),
        updateFirebaseTokens c r.idToken r.refreshToken r.expiresIn
          c.firebaseUid c.userEmail now, 1⟩
    | .failure msg =>
      ⟨.error ⟨"Token refresh failed", some 401, some msg⟩,
        clearFirebaseTokens c, 1⟩

/-- Observable result of one logical pipeline call: `result = none` means the
fuel ran out while the interceptor kept resubmitting; `cfg` is the final
configuration; `refreshCalls` counts refresh network calls; `attempts` counts
HTTP submissions of the request; `headersSent` records the headers attached to
each submission by the request interceptor. -/
structure CallResult where
  result : Option (Except APIError Nat)
  cfg : Config
  refreshCalls : Nat
  attempts : Nat
  headersSent : List (List (String × String))
deriving Repr, DecidableEq

/-- One logical call through the intercepted `httpClient`
(`APIClient.setupInterceptors`), sequentially.  `server att` is the HTTP status
of the `att`-th submission; `svc k` is the outcome of the `k`-th refresh
network call.  Per submission: the request interceptor awaits
`refreshTokenIfNeeded()` (a thrown error bypasses dispatch and reaches the
response interceptor's rejection handler, whose `handleError` on a non-Axios
error yields `Request error: <message>`), then attaches `getApiHeaders()`; a
2xx response resolves; on 401 the response interceptor awaits
`refreshTokenIfNeeded()` again — if that throws, `clearTokens()` runs and
`APIError('Authentication failed', 401, 'Token refresh failed')` is thrown;
otherwise, if still authenticated, the original request is resubmitted through
the same interceptors; any other (or unretried) error is mapped by
`handleError` to an `APIError` carrying the status (response bodies are
modelled as empty, so the extracted message is the `'Unknown error occurred'`
fallback). -/
def runCallAux (server : Nat → Nat) (svc : Nat → RefreshOutcome) (now : Int) :
    Nat → Config → Nat → Nat → List (List (String × String)) → CallResult
  | 0, c, att, rc, hs => ⟨none, c, rc, att, hs⟩
  | fuel + 1, c, att, rc, hs =>
    let rs := refreshTokenIfNeededSeq c now (svc rc)
    match rs.result with
    | .error e =>
      ⟨some (.error ⟨"Request error: " ++ e.message, none, none⟩),
        rs.cfg, rc + rs.networkCalls, att, hs⟩
    | .ok _ =>
      let c1 := rs.cfg
      let rc1 := rc + rs.networkCalls
      let hs1 := hs ++ [getApiHeaders c1]
      let status := server att
      if 200 ≤ status ∧ status < 300 then
        ⟨some (.ok status), c1, rc1, att + 1, hs1⟩
      else if status == 401 then
        let rs2 := refreshTokenIfNeededSeq c1 now (svc rc1)
        let rc2 := rc1 + rs2.networkCalls
        match rs2.result with
        | .error _ =>
          ⟨some (.error ⟨"Authentication failed", some 401, some "Token refresh failed"⟩),
            clearTokens rs2.cfg, rc2, att + 1, hs1⟩
        | .ok _ =>
          if isAuthenticated rs2.cfg then
            runCallAux server svc now fuel rs2.cfg (att + 1) rc2 hs1
          else
            ⟨some (.error ⟨"Unknown error occurred", some 401, none⟩),
              rs2.cfg, rc2, att + 1, hs1⟩
      else
        ⟨some (.error ⟨"Unknown error occurred", some (status : Int), none⟩),
          c1, rc1, att + 1, hs1⟩

/-- A logical call started with no prior attempts. -/
def runCall (server : Nat → Nat) (svc : Nat → RefreshOutcome) (now : Int)
    (fuel : Nat) (c : Config) : CallResult :=
  runCallAux server svc now fuel c 0 0 []

/-- Body of a 2xx response of `GET /api/health-check`. -/
structure HealthBody where
  status : String
  timestamp : String
deriving Repr, DecidableEq

/-- `APIClient.healthCheck`: a GET to `/api/health-check` issued through the
intercepted `httpClient` (the same request/response interceptors as every
other call); on 2xx the response body's status/timestamp record is returned
unchanged. -/
def healthCheck (fuel : Nat) (c : Config) (now : Int) (server : Nat → Nat)
    (svc : Nat → RefreshOutcome) (body : HealthBody) :
    Option (Except APIError HealthBody) × CallResult :=
  let r := runCall server svc now fuel c
  (r.result.map (fun res => res.map (fun _ => body)), r)

/-- The task record of `TaskSchema` (packages/core/src/models/task.ts),
restricted to its scalar fields; the nested `user_states`/`attachments`
objects play no role in any modelled operation. -/
structure Task where
  id : String
  created_at : String
  user_id : String
  title : String
  content : String
  is_completed : Bool
  completed_at : Option String
  parent_id : Option String
  position : Int
  start_time : Option String
  due_time : Option String
deriving Repr, DecidableEq

/-- `APIClient.getTask(taskId)`: awaits `listTasks()` (whose failure
propagates), selects `tasks.find(t => t.id === taskId)` client-side, throws
`APIError('Task with ID <id> not found', 404)` when no task matches, and
returns the matching task otherwise. -/
def getTask (listed : Except APIError (List Task)) (taskId : String) :
    Except APIError Task :=
  match listed with
  | .error e => .error e
  | .ok tasks =>
    match tasks.find? (fun t => t.id == taskId) with
    | none => .error ⟨"Task with ID " ++ taskId ++ " not found", some 404, none⟩
    | some t => .ok t

/-- A stored credential state whose token is stale: the expiry timestamp
(1000 ms) is far in the past relative to current time 1000000. -/
def staleCfg : Config :=
  { endpoint := "http://localhost:5173", timeout := 30000,
    firebaseIdToken := some "tok0", firebaseRefreshToken := some "ref0",
    firebaseUid := some "uid0", userEmail := some "e@x.com",
    firebaseTokenExpiresAt := some 1000, lastLogin := none }

/-- A refresh service that always succeeds with a one-hour token. -/
def svcOk : Nat → RefreshOutcome := fun _ => .success ⟨"tok1", "ref1", 3600⟩

/-- A server that answers 401 to every submission. -/
def always401 : Nat → Nat := fun _ => 401

/-- A server that answers 401 to the first submission and 200 afterwards. -/
def server401then200 : Nat → Nat := fun att => if att == 0 then 401 else 200

/-- `staleCfg` after the one successful refresh at time 1000000: the new expiry
(4600000) makes `needsFirebaseTokenRefresh` false. -/
def freshCfg1 : Config :=
  updateFirebaseTokens staleCfg "tok1" "ref1" 3600 (some "uid0") (some "e@x.com")
    1000000

/-- A stored credential state holding a fresh token (expiry 4600000 at current
time 1000000) together with a refresh credential. -/
def freshCfg : Config :=
  { endpoint := "http://localhost:5173", timeout := 30000,
    firebaseIdToken := some "tokF", firebaseRefreshToken := some "refF",
    firebaseUid := some "uidF", userEmail := none,
    firebaseTokenExpiresAt := some 4600000, lastLogin := none }

/-- Result a single pipeline request observes from its run of
`refreshTokenIfNeeded` in the concurrent model. -/
inductive ReqResult where
  | noRefreshNeeded
  | noRefreshToken
  | refreshed (ok : Bool)
deriving Repr, DecidableEq

/-- State of one pipeline request: not yet at the pre-request refresh check,
suspended awaiting the promise of refresh call `callIdx`, or completed. -/
inductive ReqState where
  | start
  | waiting (callIdx : Nat)
  | done (r : ReqResult)
deriving Repr, DecidableEq

/-- Process state for the concurrent refresh coordination of `APIClient`:
the shared configuration, the current time, the `isRefreshing` flag and
`refreshPromise` handle (holding the index of the stored call's promise),
the outcomes of the refresh calls that have settled (call `k` has settled iff
`k < outcomes.length`), the number of refresh network calls issued, and the
state of every potential request. -/
structure SysState where
  cfg : Config
  now : Int
  isRefreshing : Bool
  refreshPromise : Option Nat
  outcomes : List Bool
  callsIssued : Nat
  reqs : Nat → ReqState

/-- Events of the event-loop interleaving: `enter i` runs request `i`'s
synchronous prefix of `refreshTokenIfNeeded` (no `await` separates its checks
from marker creation, so it is one atomic step); `settle ok r` is the
outstanding refresh network call settling (running the body of
`performTokenRefresh` after its `await`); `clearFlags` is the owner's
`finally` block; `wake i` resumes a request whose awaited promise has settled;
`tick d` advances time. -/
inductive Event where
  | enter (i : Nat)
  | settle (ok : Bool) (r : RefreshResult)
  | clearFlags
  | wake (i : Nat)
  | tick (d : Nat)
deriving Repr, DecidableEq

/-- The synchronous prefix of `APIClient.refreshTokenIfNeeded` for request `i`:
`if (isRefreshing && refreshPromise) return refreshPromise` (join);
`if (!needsFirebaseTokenRefresh()) return`; `if (!refreshToken) throw`;
otherwise set `isRefreshing`, store the new promise, and start the network
call (the request then awaits its own promise). -/
def enterStep (s : SysState) (i : Nat) : SysState :=
  match s.reqs i with
  | .start =>
    if s.isRefreshing && s.refreshPromise.isSome then
      { s with reqs := Function.update s.reqs i (.waiting (s.refreshPromise.getD 0)) }
    else if !(needsFirebaseTokenRefresh s.cfg s.now) then
      { s with reqs := Function.update s.reqs i (.done .noRefreshNeeded) }
    else if !(strTruthy s.cfg.firebaseRefreshToken) then
      { s with reqs := Function.update s.reqs i (.done .noRefreshToken) }
    else
      { s with isRefreshing := true
               refreshPromise := some s.callsIssued
               callsIssued := s.callsIssued + 1
               reqs := Function.update s.reqs i (.waiting s.callsIssued) }
  | _ => s

/-- The outstanding refresh network call settles: on success
`updateFirebaseTokens` runs with the stored uid/email passed through, on
failure `clearFirebaseTokens` runs; the call's promise is then resolved or
rejected.  A no-op when no call is outstanding. -/
def settleStep (s : SysState) (ok : Bool) (r : RefreshResult) : SysState :=
  if s.outcomes.length < s.callsIssued then
    { s with
      cfg :=
        if ok then
          updateFirebaseTokens s.cfg r.idToken r.refreshToken r.expiresIn
            s.cfg.firebaseUid s.cfg.userEmail s.now
        else clearFirebaseTokens s.cfg
      outcomes := s.outcomes ++ [ok] }
  else s

/-- The owner's `finally { isRefreshing = false; refreshPromise = null }`,
which runs only once the promise it awaited has settled. -/
def clearFlagsStep (s : SysState) : SysState :=
  match s.refreshPromise with
  | some k =>
    if k < s.outcomes.length then
      { s with isRefreshing := false, refreshPromise := none }
    else s
  | none => s

/-- A request suspended on a settled promise resumes, observing that promise's
outcome. -/
def wakeStep (s : SysState) (i : Nat) : SysState :=
  match s.reqs i with
  | .waiting k =>
    match s.outcomes.get? k with
    | some ok => { s with reqs := Function.update s.reqs i (.done (.refreshed ok)) }
    | none => s
  | _ => s

/-- Small-step transition of the concurrent model; events whose guard fails
are no-ops (stuttering). -/
def step (s : SysState) : Event → SysState
  | .enter i => enterStep s i
  | .settle ok r => settleStep s ok r
  | .clearFlags => clearFlagsStep s
  | .wake i => wakeStep s i
  | .tick d => { s with now := s.now + (d : Int) }

/-- Run a schedule (list of events) from a state. -/
def run (s0 : SysState) (tr : List Event) : SysState :=
  tr.foldl step s0

/-- Initial state for the single-flight scenario: the stale credential record
`staleCfg`, no refresh outstanding, every request at `start`. -/
def staleInit : SysState :=
  { cfg := staleCfg, now := 1000000, isRefreshing := false,
    refreshPromise := none, outcomes := [], callsIssued := 0,
    reqs := fun _ => .start }

/-- Recognizer for settle events. -/
def isSettle : Event → Bool
  | .settle _ _ => true
  | _ => false

end Cliofy

namespace Cliofy

/-- C4 counterexample: a record whose expiry timestamp is present with value
`0`.  The claim's condition holds (`t = 0 ≥ 0 - 300000`), yet the code returns
`false`, because `!this.config.firebaseTokenExpiresAt` treats `0` as absent. -/
theorem needsRefresh_zero_expiry_cex :
    ({ DEFAULT_CONFIG with firebaseTokenExpiresAt := some 0 } :
        Config).firebaseTokenExpiresAt.isSome = true ∧
    ((0 : Int) - 300000 ≤ 0) ∧
    needsFirebaseTokenRefresh
      { DEFAULT_CONFIG with firebaseTokenExpiresAt := some 0 } 0 = false := by
  refine ⟨rfl, by norm_num, rfl⟩

/-- C4 (amended): `needsFirebaseTokenRefresh` returns `true` iff the expiry
timestamp is present, non-zero (a stored `0` is JavaScript-falsy and treated
like an absent expiry), and the current time is at or past expiry minus the
5-minute buffer; in particular it is `false` when the expiry is absent or the
current time is strictly before expiry minus the buffer. -/
theorem needsRefresh_iff (c : Config) (t : Int) :
    needsFirebaseTokenRefresh c t = true ↔
      ∃ e, c.firebaseTokenExpiresAt = some e ∧ e ≠ 0 ∧ e - 300000 ≤ t := by
  unfold needsFirebaseTokenRefresh
  cases h : c.firebaseTokenExpiresAt with
  | none => simp
  | some e =>
    by_cases he : e = 0
    · subst he; simp
    · simp [he, bufferTime]

/-- C8: `clearTokens` removes the five token-related fields, leaves `endpoint`
and `timeout` unchanged, and is idempotent. -/
theorem clearTokens_idempotent_frame (c : Config) :
    (clearTokens c).endpoint = c.endpoint ∧
    (clearTokens c).timeout = c.timeout ∧
    (clearTokens c).firebaseIdToken = none ∧
    (clearTokens c).firebaseRefreshToken = none ∧
    (clearTokens c).firebaseUid = none ∧
    (clearTokens c).userEmail = none ∧
    (clearTokens c).firebaseTokenExpiresAt = none ∧
    clearTokens (clearTokens c) = clearTokens c := by
  refine ⟨rfl, rfl, rfl, rfl, rfl, rfl, rfl, rfl⟩

/-- C6: `loadConfig` is total — on an absent, unreadable, non-JSON or
schema-invalid file it returns `DEFAULT_CONFIG` (the thrown read/parse errors
are caught, the schema failure is handled inline), and on a schema-valid file
it returns the parsed record. -/
theorem load_total_and_defaulting (fs : FileState) :
    loadConfig fs =
      (match fs with
       | .json (.schemaValid c) => c
       | _ => DEFAULT_CONFIG) := by
  cases fs with
  | json p => cases p <;> rfl
  | absent => rfl
  | unreadable => rfl
  | notJson => rfl

/-- C5: saving a record that fails schema validation returns the
`invalidConfig` error with the store (file and cache) unchanged; and whenever
the post-call store differs from the pre-call store at all, validation
succeeded, the file write succeeded, the file now holds the record and the
cache was updated to it. -/
theorem save_invalid_atomic (st : Store) (r : Config) (w : Bool) :
    (configValid r = false →
      saveConfig st (some r) w = (.error .invalidConfig, st)) ∧
    ((saveConfig st (some r) w).2 ≠ st →
      configValid r = true ∧ w = false ∧
        (saveConfig st (some r) w).2 =
          { file := .json (.schemaValid r), cache := some r }) := by
  constructor
  · intro hv
    simp [saveConfig, Option.orElse, hv]
  · intro hch
    by_cases hv : configValid r
    · by_cases hw : w
      · exfalso; exact hch (by simp [saveConfig, Option.orElse, hv, hw])
      · refine ⟨hv, by simpa using hw, ?_⟩
        simp [saveConfig, Option.orElse, hv, hw]
    · exfalso
      exact hch (by simp [saveConfig, Option.orElse, hv])

/-- Witness for C5: a record with `timeout = 0` fails
`z.number().int().positive()`, so `saveConfig` rejects it and leaves a concrete
store untouched. -/
theorem save_invalid_atomic_witness :
    configValid { DEFAULT_CONFIG with timeout := 0 } = false ∧
    saveConfig { file := .absent, cache := some DEFAULT_CONFIG }
        (some { DEFAULT_CONFIG with timeout := 0 }) false =
      (.error .invalidConfig, { file := .absent, cache := some DEFAULT_CONFIG }) :=
  ⟨by decide,
    (save_invalid_atomic { file := .absent, cache := some DEFAULT_CONFIG }
        { DEFAULT_CONFIG with timeout := 0 } false).1 (by decide)⟩

/-- Records reachable from `DEFAULT_CONFIG` through the token-mutating
operations of the source: `AuthManager.login` (which calls
`updateFirebaseTokens` with the provider's uid), the refresh path
(`APIClient.performTokenRefresh`, which runs only when
`needsFirebaseTokenRefresh()` was true and a truthy refresh token was stored,
and passes the currently stored uid/email through), and
`clearTokens` (logout / failure handling).  Updates whose merged record fails
`ConfigSchema` validation throw inside `saveConfig` and leave the record
unchanged, so only validated updates add reachable records. -/
inductive Reachable : Config → Prop where
  | base : Reachable DEFAULT_CONFIG
  | login (c : Config) (idTok refTok : String) (expiresIn : Int) (uid : String)
      (email : Option String) (now : Int) (hc : Reachable c)
      (hv : configValid
          (updateFirebaseTokens c idTok refTok expiresIn (some uid) email now) =
        true) :
      Reachable (updateFirebaseTokens c idTok refTok expiresIn (some uid) email now)
  | refresh (c : Config) (idTok refTok : String) (expiresIn : Int) (now : Int)
      (hc : Reachable c)
      (hstale : needsFirebaseTokenRefresh c now = true)
      (htok : strTruthy c.firebaseRefreshToken = true)
      (hv : configValid
          (updateFirebaseTokens c idTok refTok expiresIn c.firebaseUid
            c.userEmail now) = true) :
      Reachable
        (updateFirebaseTokens c idTok refTok expiresIn c.firebaseUid c.userEmail now)
  | logout (c : Config) (hc : Reachable c) : Reachable (clearTokens c)

/-- Strengthened induction invariant for `Reachable`: the bearer-token and
uid fields are present together, and a truthy stored refresh token implies
both are present (the refresh path reuses the stored uid, so this is what
keeps the dichotomy through refreshes). -/
theorem reachable_fields (c : Config) (h : Reachable c) :
    c.firebaseIdToken.isSome = c.firebaseUid.isSome ∧
      (strTruthy c.firebaseRefreshToken = true → c.firebaseUid.isSome = true) := by
  induction h with
  | base => simp [DEFAULT_CONFIG, strTruthy]
  | login c idTok refTok expiresIn uid email now hc hv ih =>
    simp [updateFirebaseTokens]
  | refresh c idTok refTok expiresIn now hc hstale htok hv ih =>
    have huid : c.firebaseUid.isSome = true := ih.2 htok
    simp [updateFirebaseTokens, huid]
  | logout c hc ih =>
    simp [clearTokens, strTruthy]

/-- C7 counterexample input: a login whose token and uid are empty strings.
Validation accepts it, so it is reachable; both fields are then present, yet
`isAuthenticated` is `false` because `!!("" && "")` is falsy. -/
def emptyTokenLoginCfg : Config :=
  updateFirebaseTokens DEFAULT_CONFIG "" "r1" 3600 (some "") none 0

/-- C7 counterexample: a reachable record on which the token and uid fields are
both present but `isAuthenticated()` returns `false`, refuting "isAuthenticated
returns true exactly when both are present". -/
theorem auth_dichotomy_empty_token_cex :
    Reachable emptyTokenLoginCfg ∧
    emptyTokenLoginCfg.firebaseIdToken.isSome = true ∧
    emptyTokenLoginCfg.firebaseUid.isSome = true ∧
    isAuthenticated emptyTokenLoginCfg = false :=
  ⟨Reachable.login DEFAULT_CONFIG "" "r1" 3600 "" none 0 Reachable.base (by decide),
    by decide, by decide, by decide⟩

/-- C7 (amended): in every record reachable from the default record through the
token-mutating operations, the bearer-token and subject-identifier fields are
both present or both absent, and `isAuthenticated` — a pure function of the
record — returns `true` exactly when both are present with non-empty values
(JavaScript truthiness makes an empty string count as unauthenticated). -/
theorem auth_dichotomy_invariant (c : Config) (h : Reachable c) :
    c.firebaseIdToken.isSome = c.firebaseUid.isSome ∧
      (isAuthenticated c = true ↔
        (∃ t, c.firebaseIdToken = some t ∧ t ≠ "") ∧
          ∃ u, c.firebaseUid = some u ∧ u ≠ "") := by
  refine ⟨(reachable_fields c h).1, ?_⟩
  unfold isAuthenticated strTruthy
  cases c.firebaseIdToken with
  | none => simp
  | some t =>
    cases c.firebaseUid with
    | none => simp
    | some u =>
      constructor
      · intro hb
        rcases Bool.and_eq_true .. |>.mp hb with ⟨ht, hu⟩
        refine ⟨⟨t, rfl, ?_⟩, ⟨u, rfl, ?_⟩⟩
        · intro he; subst he; simp at ht
        · intro he; subst he; simp at hu
      · rintro ⟨⟨t', ht', htne⟩, ⟨u', hu', hune⟩⟩
        cases ht'; cases hu'
        simp [htne, hune]

/-- Witness for C7: a concrete login with non-empty token and uid is reachable
and authenticated. -/
theorem auth_dichotomy_invariant_witness :
    (updateFirebaseTokens DEFAULT_CONFIG "t1" "r1" 3600 (some "u1") none
        0).firebaseIdToken.isSome =
      (updateFirebaseTokens DEFAULT_CONFIG "t1" "r1" 3600 (some "u1") none
        0).firebaseUid.isSome ∧
    (isAuthenticated
        (updateFirebaseTokens DEFAULT_CONFIG "t1" "r1" 3600 (some "u1") none 0) =
          true ↔
      (∃ t, (updateFirebaseTokens DEFAULT_CONFIG "t1" "r1" 3600 (some "u1") none
          0).firebaseIdToken = some t ∧ t ≠ "") ∧
        ∃ u, (updateFirebaseTokens DEFAULT_CONFIG "t1" "r1" 3600 (some "u1") none
          0).firebaseUid = some u ∧ u ≠ "") :=
  auth_dichotomy_invariant
    (updateFirebaseTokens DEFAULT_CONFIG "t1" "r1" 3600 (some "u1") none 0)
    (Reachable.login DEFAULT_CONFIG "t1" "r1" 3600 "u1" none 0 Reachable.base
      (by decide))

/-- Once the configuration is `freshCfg1` (post-refresh), every further unit of
fuel resubmits the request once and changes nothing else: the pre-request
refresh is a no-op, the 401 handler's refresh is a no-op, the client stays
authenticated, so the interceptor retries again. -/
theorem runCallAux_fresh_loop :
    ∀ (f att rc : Nat) (hs : List (List (String × String))),
      runCallAux always401 svcOk 1000000 f freshCfg1 att rc hs =
        ⟨none, freshCfg1, rc, att + f,
          hs ++ List.replicate f (getApiHeaders freshCfg1)⟩
  | 0, att, rc, hs => by simp [runCallAux]
  | f + 1, att, rc, hs => by
    have step :
        runCallAux always401 svcOk 1000000 (f + 1) freshCfg1 att rc hs =
          runCallAux always401 svcOk 1000000 f freshCfg1 (att + 1) rc
            (hs ++ [getApiHeaders freshCfg1]) := rfl
    rw [step, runCallAux_fresh_loop f (att + 1) rc (hs ++ [getApiHeaders freshCfg1])]
    have hatt : att + 1 + f = att + (f + 1) := by omega
    rw [hatt, List.append_assoc]
    simp [List.replicate_succ]

/-- C3 at the failing input: stale token, valid refresh credential, refresh
endpoint succeeding with a one-hour token, server answering 401 to every
submission.  The pipeline resubmits the original request once per unit of fuel
without bound (attempts = fuel), performs exactly the one refresh, never
settles, never clears the credential state and never surfaces the
`Authentication failed` error — refuting the bounded retry of exactly one. -/
theorem retry_unbounded_on_persistent_401 (f : Nat) :
    (runCall always401 svcOk 1000000 (f + 1) staleCfg).attempts = f + 1 ∧
    (runCall always401 svcOk 1000000 (f + 1) staleCfg).refreshCalls = 1 ∧
    (runCall always401 svcOk 1000000 (f + 1) staleCfg).result = none ∧
    isAuthenticated (runCall always401 svcOk 1000000 (f + 1) staleCfg).cfg = true := by
  have step :
      runCall always401 svcOk 1000000 (f + 1) staleCfg =
        runCallAux always401 svcOk 1000000 f freshCfg1 1 1
          [getApiHeaders freshCfg1] := rfl
  rw [step, runCallAux_fresh_loop f 1 1 [getApiHeaders freshCfg1]]
  refine ⟨?_, rfl, rfl, ?_⟩
  · show 1 + f = f + 1
    omega
  · show isAuthenticated freshCfg1 = true
    decide

/-- C2 counterexample: a request whose first attempt returns 401 while the
stored expiry says the token is still fresh and a refresh credential is
stored.  The reactive path issues zero refresh network calls (the claim says a
refresh call is triggered even then); the request is simply resubmitted with
the unchanged credentials and succeeds. -/
theorem reactive_refresh_fresh_token_cex :
    needsFirebaseTokenRefresh freshCfg 1000000 = false ∧
    strTruthy freshCfg.firebaseRefreshToken = true ∧
    (runCall server401then200 (fun _ => .failure "unused") 1000000 3
        freshCfg).refreshCalls = 0 ∧
    (runCall server401then200 (fun _ => .failure "unused") 1000000 3
        freshCfg).attempts = 2 ∧
    (runCall server401then200 (fun _ => .failure "unused") 1000000 3
        freshCfg).result = some (.ok 200) := by
  refine ⟨by decide, by decide, by decide, by decide, by decide⟩

/-- C2 (amended): the reactive 401 path invokes the same conditional routine
as the proactive path, so it does consult `needsRefresh()`: a refresh network
call is made during a refresh cycle iff the stored expiry marks the token
stale and a truthy refresh credential is stored; when no refresh is needed the
routine is a no-op, and a 401 answered to an authenticated request is then
resubmitted once with the unchanged credentials. -/
theorem reactive_refresh_conditional (c : Config) (now : Int) (o : RefreshOutcome) :
    (refreshTokenIfNeededSeq c now o).networkCalls =
      (if needsFirebaseTokenRefresh c now && strTruthy c.firebaseRefreshToken
        then 1 else 0) ∧
    (needsFirebaseTokenRefresh c now = false →
      refreshTokenIfNeededSeq c now o = ⟨.ok (), c, 0⟩) ∧
    (needsFirebaseTokenRefresh c now = false → isAuthenticated c = true →
      runCall server401then200 (fun _ => o) now 2 c =
        ⟨some (.ok 200), c, 0, 2, [getApiHeaders c, getApiHeaders c]⟩) := by
  refine ⟨?_, ?_, ?_⟩
  · unfold refreshTokenIfNeededSeq
    cases hn : needsFirebaseTokenRefresh c now <;>
      cases ht : strTruthy c.firebaseRefreshToken <;> cases o <;> simp
  · intro h
    unfold refreshTokenIfNeededSeq
    simp [h]
  · intro h hauth
    have hrs : refreshTokenIfNeededSeq c now o = ⟨.ok (), c, 0⟩ := by
      unfold refreshTokenIfNeededSeq; simp [h]
    simp only [runCall, runCallAux, hrs, server401then200, hauth]
    norm_num

/-- Witness for C2's amended theorem: the fresh authenticated configuration,
a 401-then-200 server — the call succeeds after one resubmission with zero
refresh network calls. -/
theorem reactive_refresh_conditional_witness :
    runCall server401then200 (fun _ => .failure "unused") 1000000 2 freshCfg =
      ⟨some (.ok 200), freshCfg, 0, 2,
        [getApiHeaders freshCfg, getApiHeaders freshCfg]⟩ :=
  (reactive_refresh_conditional freshCfg 1000000 (.failure "unused")).2.2
    (by decide) (by decide)

/-- The headers produced by `getApiHeaders` contain an `Authorization` entry
exactly when the stored bearer token is truthy. -/
theorem getApiHeaders_auth_iff (c : Config) :
    (getApiHeaders c).any (fun p => p.1 == "Authorization") =
      strTruthy c.firebaseIdToken := by
  unfold getApiHeaders strTruthy
  cases hid : c.firebaseIdToken with
  | none => rfl
  | some t =>
    by_cases ht : (t == "") = true
    · simp only [ht, if_true]
      rfl
    · have ht' : (t == "") = false := by
        revert ht; cases t == "" <;> simp
      simp only [ht', if_false]
      rfl

/-- C9 counterexample: the health check issued with a stored (stale) credential
state performs a token refresh and attaches the bearer header — it is not an
unauthenticated probe. -/
theorem healthCheck_bearer_and_refresh_cex :
    (healthCheck 1 staleCfg 1000000 (fun _ => 200) svcOk ⟨"ok", "ts"⟩).2.refreshCalls
        = 1 ∧
    (healthCheck 1 staleCfg 1000000 (fun _ => 200) svcOk
        ⟨"ok", "ts"⟩).2.headersSent = [getApiHeaders freshCfg1] ∧
    ("Authorization", "Bearer tok1") ∈ getApiHeaders freshCfg1 ∧
    (healthCheck 1 staleCfg 1000000 (fun _ => 200) svcOk ⟨"ok", "ts"⟩).1 =
      some (.ok ⟨"ok", "ts"⟩) := by
  refine ⟨by decide, by decide, by decide, by decide⟩

/-- C9 (amended): `healthCheck` issues its GET through the standard intercepted
pipeline: the pre-request refresh check runs exactly as for any other call, the
attached headers are `getApiHeaders()` of the post-refresh configuration —
which carry the bearer header exactly when a (truthy) token is stored — and a
2xx response returns the body's status/timestamp record. -/
theorem healthCheck_via_pipeline (c : Config) (now : Int) (o : RefreshOutcome)
    (body : HealthBody)
    (h : (refreshTokenIfNeededSeq c now o).result = .ok ()) :
    healthCheck 1 c now (fun _ => 200) (fun _ => o) body =
      (some (.ok body),
        ⟨some (.ok 200), (refreshTokenIfNeededSeq c now o).cfg,
          (refreshTokenIfNeededSeq c now o).networkCalls, 1,
          [getApiHeaders (refreshTokenIfNeededSeq c now o).cfg]⟩) ∧
    (getApiHeaders (refreshTokenIfNeededSeq c now o).cfg).any
        (fun p => p.1 == "Authorization") =
      strTruthy ((refreshTokenIfNeededSeq c now o).cfg).firebaseIdToken := by
  refine ⟨?_, getApiHeaders_auth_iff _⟩
  simp only [healthCheck, runCall, runCallAux, h]
  norm_num [Except.map]

/-- Witness for C9's amended theorem at the fresh configuration (where the
pre-request refresh is a no-op). -/
theorem healthCheck_via_pipeline_witness :
    healthCheck 1 freshCfg 1000000 (fun _ => 200) (fun _ => .failure "unused")
        ⟨"healthy", "ts0"⟩ =
      (some (.ok ⟨"healthy", "ts0"⟩),
        ⟨some (.ok 200),
          (refreshTokenIfNeededSeq freshCfg 1000000 (.failure "unused")).cfg,
          (refreshTokenIfNeededSeq freshCfg 1000000 (.failure "unused")).networkCalls,
          1,
          [getApiHeaders
            (refreshTokenIfNeededSeq freshCfg 1000000 (.failure "unused")).cfg]⟩) ∧
    (getApiHeaders
        (refreshTokenIfNeededSeq freshCfg 1000000 (.failure "unused")).cfg).any
        (fun p => p.1 == "Authorization") =
      strTruthy
        ((refreshTokenIfNeededSeq freshCfg 1000000
          (.failure "unused")).cfg).firebaseIdToken :=
  healthCheck_via_pipeline freshCfg 1000000 (.failure "unused") ⟨"healthy", "ts0"⟩
    (by decide)

/-- C10: `getTask` on a successfully fetched collection fails with an
`APIError` carrying status 404 when no task's id matches the argument, and
returns the matching task without error when one exists. -/
theorem getTask_notFound_404 (tasks : List Task) (taskId : String) :
    (tasks.find? (fun t => t.id == taskId) = none →
      getTask (.ok tasks) taskId =
        .error ⟨"Task with ID " ++ taskId ++ " not found", some 404, none⟩) ∧
    (∀ t, tasks.find? (fun t => t.id == taskId) = some t →
      getTask (.ok tasks) taskId = .ok t) := by
  constructor
  · intro hn
    simp [getTask, hn]
  · intro t ht
    simp [getTask, ht]

/-- A concrete task for the C10 witness. -/
def sampleTask : Task :=
  { id := "a1", created_at := "2024-01-01T00:00:00Z", user_id := "u1",
    title := "Sample", content := "", is_completed := false,
    completed_at := none, parent_id := none, position := 0,
    start_time := none, due_time := none }

/-- Marker/flag invariant of the refresh coordinator: at most one refresh call
is unsettled at any time, and while one is unsettled the `isRefreshing` flag is
set and `refreshPromise` holds exactly that call. -/
def FlagInv (s : SysState) : Prop :=
  s.outcomes.length ≤ s.callsIssued ∧
  s.callsIssued ≤ s.outcomes.length + 1 ∧
  (s.outcomes.length < s.callsIssued →
    s.isRefreshing = true ∧ s.refreshPromise = some s.outcomes.length)

/-- `FlagInv` is preserved by every event: a new call is issued only from the
branch where the `isRefreshing && refreshPromise` join-check failed, which by
the invariant means no call is unsettled; there is no suspension point between
that check and marker creation. -/
theorem flagInv_step (s : SysState) (e : Event) (h : FlagInv s) :
    FlagInv (step s e) := by
  obtain ⟨h1, h2, h3⟩ := h
  cases e with
  | enter i =>
    show FlagInv (enterStep s i)
    unfold enterStep
    split
    · split
      · exact ⟨h1, h2, h3⟩
      · next hj =>
        split
        · exact ⟨h1, h2, h3⟩
        · split
          · exact ⟨h1, h2, h3⟩
          · have hfl : s.outcomes.length = s.callsIssued := by
              rcases Nat.lt_or_ge s.outcomes.length s.callsIssued with hlt | hge
              · exact absurd (by simp [(h3 hlt).1, (h3 hlt).2]) hj
              · omega
            refine ⟨?_, ?_, ?_⟩
            · show s.outcomes.length ≤ s.callsIssued + 1
              omega
            · show s.callsIssued + 1 ≤ s.outcomes.length + 1
              omega
            · intro _
              refine ⟨rfl, ?_⟩
              show some s.callsIssued = some s.outcomes.length
              rw [hfl]
    · exact ⟨h1, h2, h3⟩
  | settle ok r =>
    show FlagInv (settleStep s ok r)
    unfold settleStep
    split
    · next hp =>
      have hlen : (s.outcomes ++ [ok]).length = s.outcomes.length + 1 := by simp
      refine ⟨?_, ?_, ?_⟩
      · show (s.outcomes ++ [ok]).length ≤ s.callsIssued
        omega
      · show s.callsIssued ≤ (s.outcomes ++ [ok]).length + 1
        omega
      · intro hlt
        exfalso
        dsimp only at hlt
        omega
    · exact ⟨h1, h2, h3⟩
  | clearFlags =>
    show FlagInv (clearFlagsStep s)
    unfold clearFlagsStep
    split
    · next k hrp =>
      split
      · next hk =>
        refine ⟨h1, h2, ?_⟩
        intro hlt
        exfalso
        have heq := (h3 hlt).2
        rw [hrp] at heq
        injection heq with heq'
        omega
      · exact ⟨h1, h2, h3⟩
    · exact ⟨h1, h2, h3⟩
  | wake i =>
    show FlagInv (wakeStep s i)
    unfold wakeStep
    split
    · split
      · exact ⟨h1, h2, h3⟩
      · exact ⟨h1, h2, h3⟩
    · exact ⟨h1, h2, h3⟩
  | tick d => exact ⟨h1, h2, h3⟩

/-- `FlagInv` holds along every schedule. -/
theorem flagInv_run (s : SysState) (tr : List Event) (h : FlagInv s) :
    FlagInv (run s tr) := by
  induction tr generalizing s with
  | nil => exact h
  | cons e tr ih => exact ih (step s e) (flagInv_step s e h)

/-- State invariant along settle-free schedules from `staleInit`: the
configuration is untouched and stale, no outcome exists, and either no request
has entered (no call issued, flags clear) or at least one has (exactly one
call issued, flags set, every request still at `start` or awaiting call 0). -/
def Pinv (s : SysState) : Prop :=
  s.cfg = staleCfg ∧ s.outcomes = [] ∧ (1000000 : Int) ≤ s.now ∧
  ((s.callsIssued = 0 ∧ s.isRefreshing = false ∧ s.refreshPromise = none ∧
      ∀ i, s.reqs i = .start) ∨
    (s.callsIssued = 1 ∧ s.isRefreshing = true ∧ s.refreshPromise = some 0 ∧
      ∀ i, s.reqs i = .start ∨ s.reqs i = .waiting 0))

/-- `staleCfg` stays in need of a refresh at every time from 1000000 on. -/
theorem staleCfg_needsRefresh (t : Int) (h : (1000000 : Int) ≤ t) :
    needsFirebaseTokenRefresh staleCfg t = true := by
  show (if (1000 : Int) == 0 then false
    else decide ((1000 : Int) - bufferTime ≤ t)) = true
  have h0 : ((1000 : Int) == 0) = false := by decide
  rw [h0]
  simp only [if_false, Bool.false_eq_true, decide_eq_true_iff, bufferTime]
  omega

/-- `Pinv` is preserved by every non-settle event. -/
theorem pinv_step (s : SysState) (e : Event) (hns : isSettle e = false)
    (h : Pinv s) : Pinv (step s e) := by
  obtain ⟨hc, ho, hnow, hd⟩ := h
  cases e with
  | enter i =>
    show Pinv (enterStep s i)
    unfold enterStep
    rcases hd with ⟨h0, hf, hp, hr⟩ | ⟨h1, hf, hp, hr⟩
    · have hjoin : (s.isRefreshing && s.refreshPromise.isSome) = false := by
        simp [hf]
      have hneed : needsFirebaseTokenRefresh s.cfg s.now = true := by
        rw [hc]; exact staleCfg_needsRefresh s.now hnow
      have htok : strTruthy s.cfg.firebaseRefreshToken = true := by
        rw [hc]; decide
      rw [hr i]
      simp only [hjoin, hneed, htok, Bool.not_true, Bool.false_eq_true, if_false]
      refine ⟨hc, ho, hnow, Or.inr ⟨?_, rfl, ?_, ?_⟩⟩
      · show s.callsIssued + 1 = 1
        omega
      · show some s.callsIssued = some 0
        rw [h0]
      · intro j
        by_cases hij : j = i
        · subst hij
          right
          show Function.update s.reqs j (ReqState.waiting s.callsIssued) j =
            ReqState.waiting 0
          rw [Function.update_same, h0]
        · left
          show Function.update s.reqs i (ReqState.waiting s.callsIssued) j =
            ReqState.start
          rw [Function.update_noteq hij]
          exact hr j
    · rcases hr i with hri | hri <;> rw [hri]
      · have hjoin : (s.isRefreshing && s.refreshPromise.isSome) = true := by
          simp [hf, hp]
        simp only [hjoin, if_true]
        refine ⟨hc, ho, hnow, Or.inr ⟨h1, hf, hp, ?_⟩⟩
        intro j
        by_cases hij : j = i
        · subst hij
          right
          show Function.update s.reqs j
              (ReqState.waiting (s.refreshPromise.getD 0)) j = ReqState.waiting 0
          rw [Function.update_same, hp]
          rfl
        · show Function.update s.reqs i
              (ReqState.waiting (s.refreshPromise.getD 0)) j = ReqState.start ∨
            Function.update s.reqs i
              (ReqState.waiting (s.refreshPromise.getD 0)) j = ReqState.waiting 0
          rw [Function.update_noteq hij]
          exact hr j
      · exact ⟨hc, ho, hnow, Or.inr ⟨h1, hf, hp, hr⟩⟩
  | settle ok r => simp [isSettle] at hns
  | clearFlags =>
    show Pinv (clearFlagsStep s)
    unfold clearFlagsStep
    rcases hd with ⟨h0, hf, hp, hr⟩ | ⟨h1, hf, hp, hr⟩
    · rw [hp]
      exact ⟨hc, ho, hnow, Or.inl ⟨h0, hf, hp, hr⟩⟩
    · rw [hp, ho]
      simp only [List.length_nil, Nat.lt_irrefl, if_false]
      exact ⟨hc, ho, hnow, Or.inr ⟨h1, hf, hp, hr⟩⟩
  | wake i =>
    show Pinv (wakeStep s i)
    unfold wakeStep
    rcases hd with ⟨h0, hf, hp, hr⟩ | ⟨h1, hf, hp, hr⟩
    · rw [hr i]
      exact ⟨hc, ho, hnow, Or.inl ⟨h0, hf, hp, hr⟩⟩
    · rcases hr i with hri | hri <;> rw [hri]
      · exact ⟨hc, ho, hnow, Or.inr ⟨h1, hf, hp, hr⟩⟩
      · rw [ho]
        simp only [List.get?_nil]
        exact ⟨hc, ho, hnow, Or.inr ⟨h1, hf, hp, hr⟩⟩
  | tick d =>
    refine ⟨hc, ho, ?_, ?_⟩
    · show (1000000 : Int) ≤ s.now + (d : Int)
      omega
    · rcases hd with ⟨h0, hf, hp, hr⟩ | ⟨h1, hf, hp, hr⟩
      · exact Or.inl ⟨h0, hf, hp, hr⟩
      · exact Or.inr ⟨h1, hf, hp, hr⟩

/-- `Pinv` holds after every settle-free schedule. -/
theorem pinv_run (s : SysState) (tr : List Event)
    (hns : ∀ e ∈ tr, isSettle e = false) (h : Pinv s) : Pinv (run s tr) := by
  induction tr generalizing s with
  | nil => exact h
  | cons e tr ih =>
    exact ih (step s e)
      (fun e' he' => hns e' (List.mem_cons_of_mem e he'))
      (pinv_step s e (hns e (List.mem_cons_self e tr)) h)

/-- State invariant for the phase after all `N` concurrent requests have
entered: exactly one refresh call was issued, at most one outcome exists,
every request below `N` is awaiting call 0 or completed with that call's
outcome, and no request completed any other way. -/
def Qinv (N : Nat) (s : SysState) : Prop :=
  s.callsIssued = 1 ∧ s.outcomes.length ≤ 1 ∧
  (∀ i, i < N → (s.reqs i = .waiting 0 ∨
    ∃ ok, s.outcomes = [ok] ∧ s.reqs i = .done (.refreshed ok))) ∧
  (∀ i, s.reqs i = .start ∨ s.reqs i = .waiting 0 ∨
    ∃ ok, s.outcomes = [ok] ∧ s.reqs i = .done (.refreshed ok))

/-- `Qinv` is preserved by every event that does not enter a fresh request
above `N`. -/
theorem qinv_step (N : Nat) (s : SysState) (e : Event)
    (hE : ∀ i, e = .enter i → i < N) (h : Qinv N s) : Qinv N (step s e) := by
  obtain ⟨h1, h2, h3, h4⟩ := h
  cases e with
  | enter i =>
    show Qinv N (enterStep s i)
    have hi : i < N := hE i rfl
    unfold enterStep
    rcases h3 i hi with hri | ⟨ok, ho, hri⟩ <;> rw [hri] <;>
      exact ⟨h1, h2, h3, h4⟩
  | settle ok r =>
    show Qinv N (settleStep s ok r)
    unfold settleStep
    split
    · next hp =>
      have ho : s.outcomes = [] := by
        rw [h1] at hp
        exact List.length_eq_zero.mp (by omega)
      have hnd : ∀ i, s.reqs i ≠ .waiting 0 →
          s.reqs i = .start ∧ ∀ r', s.reqs i ≠ .done r' := by
        intro i hw
        rcases h4 i with hri | hri | ⟨ok', ho', hri⟩
        · exact ⟨hri, by intro r' hd; rw [hri] at hd; exact ReqState.noConfusion hd⟩
        · exact absurd hri hw
        · rw [ho] at ho'; exact absurd ho' (by simp)
      refine ⟨h1, ?_, ?_, ?_⟩
      · show (s.outcomes ++ [ok]).length ≤ 1
        rw [ho]; rfl
      · intro i hi
        rcases h3 i hi with hri | ⟨ok', ho', hri⟩
        · exact Or.inl hri
        · rw [ho] at ho'; exact absurd ho' (by simp)
      · intro i
        rcases h4 i with hri | hri | ⟨ok', ho', hri⟩
        · exact Or.inl hri
        · exact Or.inr (Or.inl hri)
        · rw [ho] at ho'; exact absurd ho' (by simp)
    · exact ⟨h1, h2, h3, h4⟩
  | clearFlags =>
    show Qinv N (clearFlagsStep s)
    unfold clearFlagsStep
    split
    · split
      · exact ⟨h1, h2, h3, h4⟩
      · exact ⟨h1, h2, h3, h4⟩
    · exact ⟨h1, h2, h3, h4⟩
  | wake i =>
    show Qinv N (wakeStep s i)
    unfold wakeStep
    rcases h4 i with hri | hri | ⟨ok', ho', hri⟩ <;> rw [hri] <;> dsimp only
    · exact ⟨h1, h2, h3, h4⟩
    · cases hgo : s.outcomes.get? 0 with
      | none => exact ⟨h1, h2, h3, h4⟩
      | some okw =>
        have ho : s.outcomes = [okw] := by
          have hlen : 1 ≤ s.outcomes.length := by
            by_contra hn
            have : s.outcomes.length = 0 := by omega
            rw [List.length_eq_zero.mp this] at hgo
            exact Option.noConfusion hgo
          have : s.outcomes.length = 1 := by omega
          obtain ⟨a, ha⟩ := List.length_eq_one.mp this
          rw [ha] at hgo
          simp at hgo
          rw [ha, hgo]
        refine ⟨h1, h2, ?_, ?_⟩
        · intro j hj
          show Function.update s.reqs i (ReqState.done (ReqResult.refreshed okw)) j
              = ReqState.waiting 0 ∨
            ∃ ok, s.outcomes = [ok] ∧
              Function.update s.reqs i (ReqState.done (ReqResult.refreshed okw)) j
                = ReqState.done (ReqResult.refreshed ok)
          by_cases hij : j = i
          · subst hij
            right
            exact ⟨okw, ho, by rw [Function.update_same]⟩
          · rw [Function.update_noteq hij]
            exact h3 j hj
        · intro j
          show Function.update s.reqs i (ReqState.done (ReqResult.refreshed okw)) j
              = ReqState.start ∨
            Function.update s.reqs i (ReqState.done (ReqResult.refreshed okw)) j
              = ReqState.waiting 0 ∨
            ∃ ok, s.outcomes = [ok] ∧
              Function.update s.reqs i (ReqState.done (ReqResult.refreshed okw)) j
                = ReqState.done (ReqResult.refreshed ok)
          by_cases hij : j = i
          · subst hij
            right; right
            exact ⟨okw, ho, by rw [Function.update_same]⟩
          · rw [Function.update_noteq hij]
            exact h4 j
    · exact ⟨h1, h2, h3, h4⟩
  | tick d => exact ⟨h1, h2, h3, h4⟩

/-- `Qinv` holds after every schedule whose enter events stay below `N`. -/
theorem qinv_run (N : Nat) (s : SysState) (tr : List Event)
    (hE : ∀ i, Event.enter i ∈ tr → i < N) (h : Qinv N s) :
    Qinv N (run s tr) := by
  induction tr generalizing s with
  | nil => exact h
  | cons e tr ih =>
    refine ih (step s e) (fun i hi => hE i (List.mem_cons_of_mem e hi)) ?_
    refine qinv_step N s e (fun i hei => ?_) h
    exact hE i (by rw [hei]; exact List.mem_cons_self _ tr)

/-- `Pinv` holds at the initial state. -/
theorem pinv_staleInit : Pinv staleInit :=
  ⟨rfl, rfl, le_refl _, Or.inl ⟨rfl, rfl, rfl, fun _ => rfl⟩⟩

/-- `FlagInv` holds at the initial state. -/
theorem flagInv_staleInit : FlagInv staleInit :=
  ⟨Nat.le_refl 0, Nat.zero_le 1, fun h => absurd h (by decide)⟩

/-- Running an appended schedule runs the pieces in order. -/
theorem run_append (s : SysState) (tr1 tr2 : List Event) :
    run s (tr1 ++ tr2) = run (run s tr1) tr2 :=
  List.foldl_append step s tr1 tr2

/-- C1: single-flight refresh.  From the stale initial state: (a) along every
schedule, at most one refresh network call is unsettled at any time; (b) along
every settle-free schedule no request completes — every request proceeds only
after the refresh call settles; and, when all `N` concurrent requests enter
during a settle-free prefix `tr1` and the continuation `tr2` involves no other
request, (c) exactly one refresh network call is ever issued, and (d) every
request below `N` is still awaiting that single call or has completed
observing exactly its resolved/rejected outcome — and no request completes any
other way. -/
theorem single_flight_refresh (N : Nat) (hN : 1 ≤ N) (tr1 tr2 : List Event)
    (h1 : ∀ e ∈ tr1, isSettle e = false)
    (h2 : ∀ i, i < N → (run staleInit tr1).reqs i ≠ .start)
    (h3 : ∀ i, Event.enter i ∈ tr2 → i < N) :
    (∀ tr : List Event,
      (run staleInit tr).callsIssued ≤ (run staleInit tr).outcomes.length + 1) ∧
    (∀ tr : List Event, (∀ e ∈ tr, isSettle e = false) →
      ∀ i r, (run staleInit tr).reqs i ≠ .done r) ∧
    (run staleInit (tr1 ++ tr2)).callsIssued = 1 ∧
    (∀ i, i < N → ((run staleInit (tr1 ++ tr2)).reqs i = .waiting 0 ∨
      ∃ ok, (run staleInit (tr1 ++ tr2)).outcomes = [ok] ∧
        (run staleInit (tr1 ++ tr2)).reqs i = .done (.refreshed ok))) ∧
    (∀ i, (run staleInit (tr1 ++ tr2)).reqs i = .start ∨
      (run staleInit (tr1 ++ tr2)).reqs i = .waiting 0 ∨
      ∃ ok, (run staleInit (tr1 ++ tr2)).outcomes = [ok] ∧
        (run staleInit (tr1 ++ tr2)).reqs i = .done (.refreshed ok)) := by
  have hq1 : Qinv N (run staleInit tr1) := by
    have hpinv := pinv_run staleInit tr1 h1 pinv_staleInit
    obtain ⟨hc, ho, hnow, hd⟩ := hpinv
    rcases hd with ⟨h0c, hf, hp, hr⟩ | ⟨h1c, hf, hp, hr⟩
    · exact absurd (hr 0) (h2 0 hN)
    · refine ⟨h1c, by rw [ho]; exact Nat.zero_le 1, ?_, ?_⟩
      · intro i hi
        rcases hr i with hri | hri
        · exact absurd hri (h2 i hi)
        · exact Or.inl hri
      · intro i
        rcases hr i with hri | hri
        · exact Or.inl hri
        · exact Or.inr (Or.inl hri)
  have hqF : Qinv N (run staleInit (tr1 ++ tr2)) := by
    rw [run_append]
    exact qinv_run N (run staleInit tr1) tr2 h3 hq1
  refine ⟨?_, ?_, hqF.1, hqF.2.2.1, hqF.2.2.2⟩
  · intro tr
    exact (flagInv_run staleInit tr flagInv_staleInit).2.1
  · intro tr htr i r
    obtain ⟨_, _, _, hd⟩ := pinv_run staleInit tr htr pinv_staleInit
    rcases hd with ⟨_, _, _, hr⟩ | ⟨_, _, _, hr⟩
    · rw [hr i]
      exact fun hcontra => ReqState.noConfusion hcontra
    · rcases hr i with hri | hri <;> rw [hri] <;>
        exact fun hcontra => ReqState.noConfusion hcontra

/-- Witness for C1: two concrete requests enter, the refresh call settles
successfully, the owner clears the flags, both requests wake — exactly one
refresh network call was issued. -/
theorem single_flight_refresh_witness :
    (run staleInit
        ([Event.enter 0, Event.enter 1] ++
          [Event.settle true ⟨"t1", "r1", 3600⟩, Event.clearFlags,
            Event.wake 0, Event.wake 1])).callsIssued = 1 :=
  (single_flight_refresh 2 (by norm_num)
      [Event.enter 0, Event.enter 1]
      [Event.settle true ⟨"t1", "r1", 3600⟩, Event.clearFlags,
        Event.wake 0, Event.wake 1]
      (by decide) (by decide)
      (by intro i hi; simp at hi)).2.2.1

/-- Witness for C10: the empty collection yields the 404 error; a singleton
collection containing the requested id yields that task. -/
theorem getTask_notFound_404_witness :
    getTask (.ok ([] : List Task)) "zzz" =
      .error ⟨"Task with ID " ++ "zzz" ++ " not found", some 404, none⟩ ∧
    getTask (.ok [sampleTask]) "a1" = .ok sampleTask :=
  ⟨(getTask_notFound_404 [] "zzz").1 rfl,
    (getTask_notFound_404 [sampleTask] "a1").2 sampleTask (by decide)⟩

end Cliofy
